import Mathlib

/-!
Verification of the `sense` repository (volleyball classifier example and
sense_studio project tags) against its natural-language specification.

Python dictionaries are embedded as association lists in insertion order
(`Dict K V`): `lookup` is first-match lookup, `setItem` mirrors
`d[k] = v` (replace in place when the key exists, append otherwise),
`eraseKey` mirrors the entry-removal part of `del d[k]` / `d.pop(k)`.
-/

namespace Sense

/-- Association list standing for a Python dict, kept in insertion order. -/
abbrev Dict (K V : Type) : Type := List (K × V)

namespace Dict

variable {K V : Type} [DecidableEq K]

/-- First-match lookup, `d[k]` / `d.get(k)`. -/
def lookup : Dict K V → K → Option V
  | [], _ => none
  | (a, v) :: rest, k => if a = k then some v else lookup rest k

/-- Membership test on keys, `k in d`. -/
def containsKey (d : Dict K V) (k : K) : Bool :=
  (lookup d k).isSome

/-- Python `d[k] = v`: replace the value in place when `k` is present,
append a fresh entry otherwise. -/
def setItem : Dict K V → K → V → Dict K V
  | [], k, v => [(k, v)]
  | (a, w) :: rest, k, v =>
    if a = k then (k, v) :: rest else (a, w) :: setItem rest k v

/-- Entry removal, the mutation part of `del d[k]` / `d.pop(k)`
(all entries with the given key are dropped; a well-formed dict has at
most one). -/
def eraseKey (d : Dict K V) (k : K) : Dict K V :=
  d.filter (fun p => p.1 ≠ k)

/-- The keys of the dict, in insertion order. -/
def keys (d : Dict K V) : List K :=
  d.map Prod.fst

/-- A well-formed Python dict never holds two entries with the same key. -/
abbrev WF (d : Dict K V) : Prop :=
  (keys d).Nodup

theorem lookup_cons (a : K) (v : V) (tl : Dict K V) (j : K) :
    lookup ((a, v) :: tl) j = if a = j then some v else lookup tl j := rfl

theorem eraseKey_cons (a : K) (v : V) (tl : Dict K V) (k : K) :
    eraseKey ((a, v) :: tl) k =
      if a = k then eraseKey tl k else (a, v) :: eraseKey tl k := by
  simp only [eraseKey, List.filter_cons]
  by_cases hak : a = k <;> simp [hak]

theorem lookup_eraseKey (d : Dict K V) (k j : K) :
    lookup (eraseKey d k) j = if j = k then none else lookup d j := by
  induction d with
  | nil => simp [eraseKey, lookup]
  | cons hd tl ih =>
    obtain ⟨a, v⟩ := hd
    rw [eraseKey_cons]
    by_cases hak : a = k
    · rw [if_pos hak, ih, lookup_cons]
      subst hak
      by_cases hja : j = a
      · simp [hja]
      · rw [if_neg hja, if_neg hja, if_neg (fun h : a = j => hja h.symm)]
    · rw [if_neg hak, lookup_cons, lookup_cons]
      by_cases haj : a = j
      · subst haj
        simp [hak]
      · rw [if_neg haj, ih]
        by_cases hjk : j = k
        · simp [hjk]
        · simp [hjk, haj]

theorem lookup_setItem (d : Dict K V) (k j : K) (v : V) :
    lookup (setItem d k v) j = if j = k then some v else lookup d j := by
  induction d with
  | nil =>
    by_cases h : j = k
    · simp [setItem, lookup, h]
    · simp only [setItem, lookup]
      rw [if_neg (fun hh : k = j => h hh.symm), if_neg h]
  | cons hd tl ih =>
    obtain ⟨a, w⟩ := hd
    show lookup (if a = k then (k, v) :: tl else (a, w) :: setItem tl k v) j = _
    by_cases hak : a = k
    · rw [if_pos hak, lookup_cons, lookup_cons]
      subst hak
      by_cases hja : j = a
      · simp [hja]
      · rw [if_neg hja, if_neg (fun h : a = j => hja h.symm),
          if_neg (fun h : a = j => hja h.symm)]
    · rw [if_neg hak, lookup_cons, ih, lookup_cons]
      by_cases haj : a = j
      · subst haj
        simp [hak]
      · simp [haj]

theorem containsKey_iff (d : Dict K V) (k : K) :
    containsKey d k = true ↔ ∃ v, lookup d k = some v := by
  simp [containsKey, Option.isSome_iff_exists]

theorem lookup_mem {d : Dict K V} {k : K} {v : V}
    (h : lookup d k = some v) : (k, v) ∈ d := by
  induction d with
  | nil => simp [lookup] at h
  | cons hd tl ih =>
    obtain ⟨a, w⟩ := hd
    rw [lookup_cons] at h
    by_cases hak : a = k
    · rw [if_pos hak] at h
      obtain rfl := Option.some.inj h
      subst hak
      exact List.mem_cons_self _ _
    · rw [if_neg hak] at h
      exact List.mem_cons_of_mem _ (ih h)

theorem lookup_of_mem_wf {d : Dict K V} (hwf : WF d) {k : K} {v : V}
    (h : (k, v) ∈ d) : lookup d k = some v := by
  induction d with
  | nil => simp at h
  | cons hd tl ih =>
    obtain ⟨a, w⟩ := hd
    have hwf2 : a ∉ tl.map Prod.fst ∧ (tl.map Prod.fst).Nodup :=
      List.nodup_cons.mp hwf
    rcases List.mem_cons.mp h with heq | hmem
    · injection heq with h1 h2
      subst h1
      subst h2
      rw [lookup_cons, if_pos rfl]
    · have hak : a ≠ k := by
        rintro rfl
        exact hwf2.1 (List.mem_map_of_mem Prod.fst hmem)
      rw [lookup_cons, if_neg hak]
      exact ih hwf2.2 hmem

end Dict

/-!
Checkpoint merge, from `src/examples/run_volleyball_classifier.py`:

    name_finetuned_layers = set(checkpoint.keys()).intersection(checkpoint_classifier.keys())
    for key in name_finetuned_layers:
        checkpoint[key] = checkpoint_classifier.pop(key)

The loop body is `mergeStep`; the set is enumerated as a list of keys
(its iteration order does not affect the result, proven pointwise below).
-/

variable {K V : Type} [DecidableEq K]

/-- One iteration of the merge loop:
`checkpoint[key] = checkpoint_classifier.pop(key)`. The `none` branch
stands for the `KeyError` that `pop` would raise on a missing key; it is
unreachable because the loop only visits keys of the intersection. -/
def mergeStep (st : Dict K V × Dict K V) (key : K) : Dict K V × Dict K V :=
  match Dict.lookup st.2 key with
  | some v => (Dict.setItem st.1 key v, Dict.eraseKey st.2 key)
  | none => st

/-- The set of fine-tuned layer names,
`set(checkpoint.keys()).intersection(checkpoint_classifier.keys())`,
enumerated in backbone key order. -/
def name_finetuned_layers (checkpoint checkpoint_classifier : Dict K V) : List K :=
  (Dict.keys checkpoint).filter (fun k => Dict.containsKey checkpoint_classifier k)

/-- The whole merge loop: final `(checkpoint, checkpoint_classifier)` pair. -/
def mergeCheckpoints (checkpoint checkpoint_classifier : Dict K V) :
    Dict K V × Dict K V :=
  (name_finetuned_layers checkpoint checkpoint_classifier).foldl mergeStep
    (checkpoint, checkpoint_classifier)

theorem containsKey_eq_mem_keys (d : Dict K V) (k : K) :
    Dict.containsKey d k = true ↔ k ∈ Dict.keys d := by
  induction d with
  | nil => simp [Dict.containsKey, Dict.lookup, Dict.keys]
  | cons hd tl ih =>
    obtain ⟨a, v⟩ := hd
    simp only [Dict.containsKey, Dict.lookup_cons, Dict.keys, List.map_cons,
      List.mem_cons]
    by_cases hak : a = k
    · simp [hak]
    · rw [if_neg hak]
      have ih2 : (Dict.lookup tl k).isSome = true ↔ k ∈ tl.map Prod.fst := by
        simpa [Dict.containsKey, Dict.keys] using ih
      constructor
      · intro h
        exact Or.inr (ih2.mp h)
      · intro h
        rcases h with h | h
        · exact absurd h.symm hak
        · exact ih2.mpr h

theorem mergeFold_lookup (L : List K) :
    ∀ (b c : Dict K V), L.Nodup →
    (∀ k ∈ L, Dict.containsKey c k = true) →
    ∀ j, (Dict.lookup (L.foldl mergeStep (b, c)).1 j
            = if j ∈ L then Dict.lookup c j else Dict.lookup b j)
      ∧ (Dict.lookup (L.foldl mergeStep (b, c)).2 j
            = if j ∈ L then none else Dict.lookup c j) := by
  induction L with
  | nil =>
    intro b c _ _ j
    simp
  | cons k rest ih =>
    intro b c hnd hsub j
    have hnd2 : k ∉ rest ∧ rest.Nodup := List.nodup_cons.mp hnd
    obtain ⟨v, hv⟩ := Option.isSome_iff_exists.mp (hsub k (List.mem_cons_self _ _))
    have hstep : mergeStep (b, c) k = (Dict.setItem b k v, Dict.eraseKey c k) := by
      simp [mergeStep, hv]
    have hsub2 : ∀ x ∈ rest, Dict.containsKey (Dict.eraseKey c k) x = true := by
      intro x hx
      have hxk : x ≠ k := fun h => hnd2.1 (h ▸ hx)
      simp only [Dict.containsKey, Dict.lookup_eraseKey, if_neg hxk]
      exact hsub x (List.mem_cons_of_mem _ hx)
    have hih := ih (Dict.setItem b k v) (Dict.eraseKey c k) hnd2.2 hsub2 j
    rw [List.foldl_cons, hstep]
    by_cases hjk : j = k
    · subst hjk
      have hjr : j ∉ rest := hnd2.1
      refine ⟨?_, ?_⟩
      · rw [hih.1, if_neg hjr, Dict.lookup_setItem, if_pos rfl, hv,
          if_pos (List.mem_cons_self _ _)]
      · rw [hih.2, if_neg hjr, Dict.lookup_eraseKey, if_pos rfl,
          if_pos (List.mem_cons_self _ _)]
    · by_cases hjr : j ∈ rest
      · have hmem : j ∈ k :: rest := List.mem_cons_of_mem _ hjr
        refine ⟨?_, ?_⟩
        · rw [hih.1, if_pos hjr, Dict.lookup_eraseKey, if_neg hjk, if_pos hmem]
        · rw [hih.2, if_pos hjr, if_pos hmem]
      · have hmem : j ∉ k :: rest := by
          simp [List.mem_cons, hjk, hjr]
        refine ⟨?_, ?_⟩
        · rw [hih.1, if_neg hjr, Dict.lookup_setItem, if_neg hjk, if_neg hmem]
        · rw [hih.2, if_neg hjr, Dict.lookup_eraseKey, if_neg hjk, if_neg hmem]

theorem mem_name_finetuned_layers (b c : Dict K V) (k : K) :
    k ∈ name_finetuned_layers b c ↔
      Dict.containsKey b k = true ∧ Dict.containsKey c k = true := by
  rw [name_finetuned_layers, List.mem_filter, ← containsKey_eq_mem_keys]

theorem nodup_name_finetuned_layers (b c : Dict K V) (hwf : Dict.WF b) :
    (name_finetuned_layers b c).Nodup :=
  hwf.filter _

/-- C1: after the merge loop of `run_volleyball_classifier.py`, every key in
the intersection of the backbone and classifier weight maps is bound in the
backbone map to the value the classifier map originally held for it, and is
no longer present in the classifier map. -/
theorem merge_common_keys_moved {V : Type} (checkpoint checkpoint_classifier : Dict String V)
    (hwf : Dict.WF checkpoint) (key : String)
    (hb : Dict.containsKey checkpoint key = true)
    (hc : Dict.containsKey checkpoint_classifier key = true) :
    Dict.lookup (mergeCheckpoints checkpoint checkpoint_classifier).1 key
      = Dict.lookup checkpoint_classifier key
    ∧ Dict.lookup (mergeCheckpoints checkpoint checkpoint_classifier).2 key = none := by
  have hmem : key ∈ name_finetuned_layers checkpoint checkpoint_classifier :=
    (mem_name_finetuned_layers _ _ _).mpr ⟨hb, hc⟩
  have hnd := nodup_name_finetuned_layers checkpoint checkpoint_classifier hwf
  have hsub : ∀ k ∈ name_finetuned_layers checkpoint checkpoint_classifier,
      Dict.containsKey checkpoint_classifier k = true :=
    fun k hk => ((mem_name_finetuned_layers _ _ _).mp hk).2
  have h := mergeFold_lookup _ checkpoint checkpoint_classifier hnd hsub key
  constructor
  · rw [mergeCheckpoints, h.1, if_pos hmem]
  · rw [mergeCheckpoints, h.2, if_pos hmem]

/-- C1 witness: the spec example — backbone `{layer1: w1, layer2: w2}`
merged with classifier `{layer2: w2f, head: wh}` moves `layer2`. -/
theorem merge_common_keys_moved_witness :
    Dict.lookup (mergeCheckpoints [("layer1", 10), ("layer2", 20)]
        [("layer2", 25), ("head", 30)]).1 "layer2"
      = Dict.lookup ([("layer2", 25), ("head", 30)] : Dict String Nat) "layer2"
    ∧ Dict.lookup (mergeCheckpoints [("layer1", 10), ("layer2", 20)]
        [("layer2", 25), ("head", 30)]).2 "layer2" = none :=
  merge_common_keys_moved [("layer1", 10), ("layer2", 20)]
    [("layer2", 25), ("head", 30)] (by decide) "layer2" (by decide) (by decide)

/-- C2: merge frame property — every key originally in the backbone map is
still present afterwards; a backbone key outside the intersection keeps its
value; a classifier key outside the intersection keeps its value. -/
theorem merge_frame {V : Type} (checkpoint checkpoint_classifier : Dict String V)
    (hwf : Dict.WF checkpoint) (j : String) :
    (Dict.containsKey checkpoint j = true →
      Dict.containsKey (mergeCheckpoints checkpoint checkpoint_classifier).1 j = true)
    ∧ (Dict.containsKey checkpoint j = true →
        Dict.containsKey checkpoint_classifier j = false →
        Dict.lookup (mergeCheckpoints checkpoint checkpoint_classifier).1 j
          = Dict.lookup checkpoint j)
    ∧ (Dict.containsKey checkpoint_classifier j = true →
        Dict.containsKey checkpoint j = false →
        Dict.lookup (mergeCheckpoints checkpoint checkpoint_classifier).2 j
          = Dict.lookup checkpoint_classifier j) := by
  have hnd := nodup_name_finetuned_layers checkpoint checkpoint_classifier hwf
  have hsub : ∀ k ∈ name_finetuned_layers checkpoint checkpoint_classifier,
      Dict.containsKey checkpoint_classifier k = true :=
    fun k hk => ((mem_name_finetuned_layers _ _ _).mp hk).2
  have h := mergeFold_lookup _ checkpoint checkpoint_classifier hnd hsub j
  refine ⟨?_, ?_, ?_⟩
  · intro hb
    by_cases hc : Dict.containsKey checkpoint_classifier j = true
    · have hmem : j ∈ name_finetuned_layers checkpoint checkpoint_classifier :=
        (mem_name_finetuned_layers _ _ _).mpr ⟨hb, hc⟩
      rw [Dict.containsKey, mergeCheckpoints, h.1, if_pos hmem]
      exact hc
    · have hmem : j ∉ name_finetuned_layers checkpoint checkpoint_classifier :=
        fun hm => hc ((mem_name_finetuned_layers _ _ _).mp hm).2
      rw [Dict.containsKey, mergeCheckpoints, h.1, if_neg hmem]
      exact hb
  · intro hb hc
    have hmem : j ∉ name_finetuned_layers checkpoint checkpoint_classifier := by
      intro hm
      rw [((mem_name_finetuned_layers _ _ _).mp hm).2] at hc
      simp at hc
    rw [mergeCheckpoints, h.1, if_neg hmem]
  · intro hc hb
    have hmem : j ∉ name_finetuned_layers checkpoint checkpoint_classifier := by
      intro hm
      rw [((mem_name_finetuned_layers _ _ _).mp hm).1] at hb
      simp at hb
    rw [mergeCheckpoints, h.2, if_neg hmem]

/-- C2 witness: on the spec example, the non-common backbone key `layer1`
keeps its value, the non-common classifier key `head` keeps its value, and
`layer2` is still present in the backbone. -/
theorem merge_frame_witness :
    Dict.lookup (mergeCheckpoints [("layer1", 10), ("layer2", 20)]
        [("layer2", 25), ("head", 30)]).1 "layer1"
      = Dict.lookup ([("layer1", 10), ("layer2", 20)] : Dict String Nat) "layer1"
    ∧ Dict.lookup (mergeCheckpoints [("layer1", 10), ("layer2", 20)]
        [("layer2", 25), ("head", 30)]).2 "head"
      = Dict.lookup ([("layer2", 25), ("head", 30)] : Dict String Nat) "head"
    ∧ Dict.containsKey (mergeCheckpoints [("layer1", 10), ("layer2", 20)]
        [("layer2", 25), ("head", 30)]).1 "layer2" = true :=
  ⟨(merge_frame [("layer1", 10), ("layer2", 20)] [("layer2", 25), ("head", 30)]
      (by decide) "layer1").2.1 (by decide) (by decide),
   (merge_frame [("layer1", 10), ("layer2", 20)] [("layer2", 25), ("head", 30)]
      (by decide) "head").2.2 (by decide) (by decide),
   (merge_frame [("layer1", 10), ("layer2", 20)] [("layer2", 25), ("head", 30)]
      (by decide) "layer2").1 (by decide)⟩

/-!
Label map inversion, from `src/examples/run_volleyball_classifier.py`:

    INT2LAB = {value: key for key, value in class2int.items()}

A dict comprehension iterates the items in insertion order, later entries
overwriting earlier ones when their (integer) keys collide.
-/

/-- `INT2LAB = {value: key for key, value in class2int.items()}`. -/
def INT2LAB (class2int : Dict String Nat) : Dict Nat String :=
  class2int.foldl (fun acc kv => Dict.setItem acc kv.2 kv.1) []

theorem Dict.containsKey_false_iff (d : Dict K V) (k : K) :
    Dict.containsKey d k = false ↔ Dict.lookup d k = none := by
  cases h : Dict.lookup d k <;> simp [Dict.containsKey, h]

theorem Dict.setItem_of_not_containsKey (d : Dict K V) (k : K) (v : V)
    (h : Dict.containsKey d k = false) : Dict.setItem d k v = d ++ [(k, v)] := by
  induction d with
  | nil => rfl
  | cons hd tl ih =>
    obtain ⟨a, w⟩ := hd
    have hak : ¬ a = k := by
      intro hh
      subst hh
      simp [Dict.containsKey, Dict.lookup_cons] at h
    have h2 : Dict.containsKey tl k = false := by
      simpa [Dict.containsKey, Dict.lookup_cons, if_neg hak] using h
    show (if a = k then (k, v) :: tl else (a, w) :: Dict.setItem tl k v)
      = ((a, w) :: tl) ++ [(k, v)]
    rw [if_neg hak, ih h2]
    simp

theorem Dict.lookup_append_of_none {d1 : Dict K V} {k : K}
    (h : Dict.lookup d1 k = none) (d2 : Dict K V) :
    Dict.lookup (d1 ++ d2) k = Dict.lookup d2 k := by
  induction d1 with
  | nil => rfl
  | cons hd tl ih =>
    obtain ⟨a, w⟩ := hd
    rw [Dict.lookup_cons] at h
    by_cases hak : a = k
    · rw [if_pos hak] at h
      simp at h
    · rw [if_neg hak] at h
      show Dict.lookup ((a, w) :: (tl ++ d2)) k = _
      rw [Dict.lookup_cons, if_neg hak]
      exact ih h

theorem foldl_setItem_swap {K V : Type} [DecidableEq K] [DecidableEq V]
    (m : Dict K V) :
    ∀ acc : Dict V K, (m.map Prod.snd).Nodup →
    (∀ p ∈ m, Dict.containsKey acc p.2 = false) →
    m.foldl (fun acc kv => Dict.setItem acc kv.2 kv.1) acc
      = acc ++ m.map Prod.swap := by
  induction m with
  | nil =>
    intro acc _ _
    simp
  | cons hd tl ih =>
    intro acc hnd hfresh
    obtain ⟨k, v⟩ := hd
    have hnd2 : v ∉ tl.map Prod.snd ∧ (tl.map Prod.snd).Nodup :=
      List.nodup_cons.mp hnd
    rw [List.foldl_cons]
    have h1 : Dict.setItem acc v k = acc ++ [(v, k)] :=
      Dict.setItem_of_not_containsKey acc v k
        (hfresh (k, v) (List.mem_cons_self _ _))
    have hfresh2 : ∀ p ∈ tl, Dict.containsKey (acc ++ [(v, k)]) p.2 = false := by
      intro p hp
      have hpv : ¬ v = p.2 := by
        intro hh
        exact hnd2.1 (hh ▸ List.mem_map_of_mem Prod.snd hp)
      have hacc : Dict.lookup acc p.2 = none :=
        (Dict.containsKey_false_iff _ _).mp
          (hfresh p (List.mem_cons_of_mem _ hp))
      rw [Dict.containsKey_false_iff, Dict.lookup_append_of_none hacc,
        Dict.lookup_cons, if_neg hpv]
      rfl
    rw [h1, ih (acc ++ [(v, k)]) hnd2.2 hfresh2]
    simp

theorem INT2LAB_eq_map_swap (class2int : Dict String Nat)
    (hv : (class2int.map Prod.snd).Nodup) :
    INT2LAB class2int = class2int.map Prod.swap := by
  have h := foldl_setItem_swap class2int [] hv (fun p _ => rfl)
  simpa [INT2LAB] using h

/-- C3 counterexample: the label metadata `{a: 0, b: 0}` is a valid JSON
object mapping label strings to integers, yet the derived `INT2LAB` maps 0
to "b", so `int2label[class2int["a"]] = "b" ≠ "a"` — the two maps do not
form a bijection for every `class2int`. -/
theorem label_roundtrip_counterexample :
    Dict.lookup ([("a", 0), ("b", 0)] : Dict String Nat) "a" = some 0
    ∧ Dict.lookup (INT2LAB [("a", 0), ("b", 0)]) 0 = some "b"
    ∧ ¬ Dict.lookup (INT2LAB [("a", 0), ("b", 0)]) 0 = some "a" := by
  decide

/-- C3 (amended): for every label metadata map whose label strings are
distinct (a dict) and whose integer values are pairwise distinct, the
derived `INT2LAB` satisfies `int2label[class2int[s]] = s` for every label
`s` and `class2int[int2label[i]] = i` for every integer `i`: the two maps
form a bijection. -/
theorem label_maps_inverse (class2int : Dict String Nat)
    (hk : Dict.WF class2int)
    (hv : (class2int.map Prod.snd).Nodup) :
    (∀ s v, Dict.lookup class2int s = some v →
      Dict.lookup (INT2LAB class2int) v = some s)
    ∧ (∀ i s, Dict.lookup (INT2LAB class2int) i = some s →
      Dict.lookup class2int s = some i) := by
  have hswap := INT2LAB_eq_map_swap class2int hv
  constructor
  · intro s v h
    have hm : (s, v) ∈ class2int := Dict.lookup_mem h
    rw [hswap]
    apply Dict.lookup_of_mem_wf
    · show (List.map Prod.fst (class2int.map Prod.swap)).Nodup
      rw [List.map_map]
      have hcomp : (Prod.fst ∘ Prod.swap : String × Nat → Nat) = Prod.snd := by
        funext p
        rfl
      rw [hcomp]
      exact hv
    · exact List.mem_map_of_mem Prod.swap hm
  · intro i s h
    rw [hswap] at h
    have hm : (i, s) ∈ class2int.map Prod.swap := Dict.lookup_mem h
    obtain ⟨p, hp, heq⟩ := List.mem_map.mp hm
    obtain ⟨a, b⟩ := p
    injection heq with h1 h2
    subst h1
    subst h2
    exact Dict.lookup_of_mem_wf hk hp

/-- C3 witness: on the injective label file `{pass: 0, serve: 1}` the two
derived maps invert each other. -/
theorem label_maps_inverse_witness :
    Dict.lookup (INT2LAB [("pass", 0), ("serve", 1)]) 0 = some "pass"
    ∧ Dict.lookup ([("pass", 0), ("serve", 1)] : Dict String Nat) "serve" = some 1 :=
  ⟨(label_maps_inverse [("pass", 0), ("serve", 1)] (by decide) (by decide)).1
      "pass" 0 (by decide),
   (label_maps_inverse [("pass", 0), ("serve", 1)] (by decide) (by decide)).2
      1 "serve" (by decide)⟩

/-!
TwoPositionsRepCounter. The class lives in
`sense/downstream_tasks/postprocess.py`, which is not among the visible
sources — only its constructor calls in `run_volleyball_classifier.py`
are. It is therefore modelled from spec §4.3. Probabilities are embedded
as rationals.
-/

/-- Modelled from the spec: the finite-state tag of `TwoPositionsRepCounter`
(class in the missing `sense/downstream_tasks/postprocess.py`); §4.3 names
the states `waiting_pos0` and `armed_pos0`. -/
inductive TPRState where
  | waiting_pos0
  | armed_pos0
deriving DecidableEq

/-- Modelled from the spec: the `CounterConfig` of a `TwoPositionsRepCounter`
(class in the missing `sense/downstream_tasks/postprocess.py`): label
indices L0 and L1 of the two positions and thresholds T0 and T1. -/
structure TwoPositionsRepCounter where
  position0 : Nat
  position1 : Nat
  threshold0 : ℚ
  threshold1 : ℚ

/-- Modelled from the spec: the mutable `RepCounterState` — finite-state tag
plus integer count. -/
structure RepState where
  tag : TPRState
  count : Nat
deriving DecidableEq

/-- Modelled from the spec: one `apply` step of `TwoPositionsRepCounter`
(missing `sense/downstream_tasks/postprocess.py`). §4.3:
`waiting_pos0 → armed_pos0` when `probabilities[L0] ≥ T0`;
`armed_pos0 → waiting_pos0` with count increment when `probabilities[L1] ≥ T1`. -/
def TwoPositionsRepCounter.step (cfg : TwoPositionsRepCounter)
    (st : RepState) (probabilities : List ℚ) : RepState :=
  match st.tag with
  | .waiting_pos0 =>
    if cfg.threshold0 ≤ probabilities.getD cfg.position0 0 then
      { st with tag := .armed_pos0 }
    else st
  | .armed_pos0 =>
    if cfg.threshold1 ≤ probabilities.getD cfg.position1 0 then
      { tag := .waiting_pos0, count := st.count + 1 }
    else st

/-- Feeding a whole sequence of probability vectors through the counter. -/
def TwoPositionsRepCounter.run (cfg : TwoPositionsRepCounter)
    (st : RepState) (seq : List (List ℚ)) : RepState :=
  seq.foldl cfg.step st

/-- One completed L0-then-L1 gesture: some frames with L0 below T0, a frame
with L0 at or above T0, some frames with L1 below T1, then a frame with L1
at or above T1. -/
abbrev CompletesRep (cfg : TwoPositionsRepCounter) (xs : List (List ℚ))
    (a : List ℚ) (ys : List (List ℚ)) (b : List ℚ) : Prop :=
  (∀ p ∈ xs, p.getD cfg.position0 0 < cfg.threshold0)
  ∧ cfg.threshold0 ≤ a.getD cfg.position0 0
  ∧ (∀ p ∈ ys, p.getD cfg.position1 0 < cfg.threshold1)
  ∧ cfg.threshold1 ≤ b.getD cfg.position1 0

theorem TwoPositionsRepCounter.run_append (cfg : TwoPositionsRepCounter)
    (st : RepState) (s1 s2 : List (List ℚ)) :
    cfg.run st (s1 ++ s2) = cfg.run (cfg.run st s1) s2 :=
  List.foldl_append _ _ _ _

theorem TwoPositionsRepCounter.run_waiting_of_below
    (cfg : TwoPositionsRepCounter) (c : Nat) (seq : List (List ℚ))
    (h : ∀ p ∈ seq, p.getD cfg.position0 0 < cfg.threshold0) :
    cfg.run ⟨.waiting_pos0, c⟩ seq = ⟨.waiting_pos0, c⟩ := by
  induction seq with
  | nil => rfl
  | cons p rest ih =>
    have hp : ¬ cfg.threshold0 ≤ p.getD cfg.position0 0 :=
      not_le.mpr (h p (List.mem_cons_self _ _))
    show cfg.run (cfg.step ⟨.waiting_pos0, c⟩ p) rest = _
    rw [TwoPositionsRepCounter.step, if_neg hp]
    exact ih (fun q hq => h q (List.mem_cons_of_mem _ hq))

theorem TwoPositionsRepCounter.run_armed_of_below
    (cfg : TwoPositionsRepCounter) (c : Nat) (seq : List (List ℚ))
    (h : ∀ p ∈ seq, p.getD cfg.position1 0 < cfg.threshold1) :
    cfg.run ⟨.armed_pos0, c⟩ seq = ⟨.armed_pos0, c⟩ := by
  induction seq with
  | nil => rfl
  | cons p rest ih =>
    have hp : ¬ cfg.threshold1 ≤ p.getD cfg.position1 0 :=
      not_le.mpr (h p (List.mem_cons_self _ _))
    show cfg.run (cfg.step ⟨.armed_pos0, c⟩ p) rest = _
    rw [TwoPositionsRepCounter.step, if_neg hp]
    exact ih (fun q hq => h q (List.mem_cons_of_mem _ hq))

theorem TwoPositionsRepCounter.run_completes
    (cfg : TwoPositionsRepCounter) (c : Nat) (xs : List (List ℚ))
    (a : List ℚ) (ys : List (List ℚ)) (b : List ℚ)
    (h : CompletesRep cfg xs a ys b) :
    cfg.run ⟨.waiting_pos0, c⟩ (xs ++ a :: (ys ++ [b]))
      = ⟨.waiting_pos0, c + 1⟩ := by
  obtain ⟨h0, ha, h1, hb⟩ := h
  rw [TwoPositionsRepCounter.run_append, cfg.run_waiting_of_below c xs h0]
  show cfg.run (cfg.step ⟨.waiting_pos0, c⟩ a) (ys ++ [b]) = _
  rw [TwoPositionsRepCounter.step, if_pos ha]
  show cfg.run ⟨.armed_pos0, c⟩ (ys ++ [b]) = _
  rw [TwoPositionsRepCounter.run_append, cfg.run_armed_of_below c ys h1]
  show cfg.step ⟨.armed_pos0, c⟩ b = _
  rw [TwoPositionsRepCounter.step, if_pos hb]

/-- C4: starting in `waiting_pos0`, (i) a sequence in which L0 never reaches
T0 leaves the counter in `waiting_pos0` with the count unchanged, whatever
L1 does — a T1 crossing while still `waiting_pos0` never increments;
(ii) an L0-then-L1 sequence increments the count exactly once; (iii) two
consecutive L0-then-L1 sequences increment it twice (count = 2). -/
theorem two_positions_rep_counter_ordering (cfg : TwoPositionsRepCounter) (c : Nat) :
    (∀ seq : List (List ℚ),
      (∀ p ∈ seq, p.getD cfg.position0 0 < cfg.threshold0) →
      cfg.run ⟨.waiting_pos0, c⟩ seq = ⟨.waiting_pos0, c⟩)
    ∧ (∀ xs a ys b, CompletesRep cfg xs a ys b →
      cfg.run ⟨.waiting_pos0, c⟩ (xs ++ a :: (ys ++ [b]))
        = ⟨.waiting_pos0, c + 1⟩)
    ∧ (∀ xs a ys b xs2 a2 ys2 b2,
      CompletesRep cfg xs a ys b → CompletesRep cfg xs2 a2 ys2 b2 →
      cfg.run ⟨.waiting_pos0, c⟩
        ((xs ++ a :: (ys ++ [b])) ++ (xs2 ++ a2 :: (ys2 ++ [b2])))
        = ⟨.waiting_pos0, c + 2⟩) := by
  refine ⟨fun seq h => cfg.run_waiting_of_below c seq h,
    fun xs a ys b h => cfg.run_completes c xs a ys b h,
    fun xs a ys b xs2 a2 ys2 b2 h h2 => ?_⟩
  rw [TwoPositionsRepCounter.run_append, cfg.run_completes c xs a ys b h,
    cfg.run_completes (c + 1) xs2 a2 ys2 b2 h2]

/-- C4 witness: with label indices L0 = 0, L1 = 1 and thresholds
T0 = T1 = 1, from count 0: a frame with L1 high but L0 low does not
increment, and two L0-then-L1 sequences count to 2. -/
theorem two_positions_rep_counter_ordering_witness :
    TwoPositionsRepCounter.run ⟨0, 1, 1, 1⟩ ⟨.waiting_pos0, 0⟩
      [[0, 9]] = ⟨.waiting_pos0, 0⟩
    ∧ TwoPositionsRepCounter.run ⟨0, 1, 1, 1⟩ ⟨.waiting_pos0, 0⟩
      (([] ++ [2, 0] :: ([] ++ [[0, 2]]))
        ++ ([] ++ [2, 0] :: ([] ++ [[0, 2]]))) = ⟨.waiting_pos0, 2⟩ :=
  ⟨(two_positions_rep_counter_ordering ⟨0, 1, 1, 1⟩ 0).1
      [[0, 9]] (by decide),
   (two_positions_rep_counter_ordering ⟨0, 1, 1, 1⟩ 0).2.2
      [] [2, 0] [] [0, 2] [] [2, 0] [] [0, 2]
      (by decide) (by decide)⟩

/-!
Project tag CRUD, from `src/tools/sense_studio/project_tags.py`. A project
configuration document holds `project_tags` (int tag id → tag name),
`max_tag_index` and `classes` (label → list of tag ids). Each Flask route
loads the persisted config, mutates it, and persists it with
`write_project_config`; when a statement raises beforehand (the `del` of a
missing key), `write_project_config` is never reached, which the
`remove_tag_route` wrapper reflects by returning the stored config.
-/

/-- The project configuration document handled by `project_tags.py`. -/
structure ProjectConfig where
  project_tags : Dict Nat String
  max_tag_index : Nat
  classes : Dict String (List Nat)

/-- `create_tag`: `new_tag_index = config[max_tag_index] + 1;
project_tags[new_tag_index] = tag_name; config[max_tag_index] = new_tag_index`. -/
def create_tag (config : ProjectConfig) (newTagName : String) : ProjectConfig :=
  let new_tag_index := config.max_tag_index + 1
  { config with
      project_tags := Dict.setItem config.project_tags new_tag_index newTagName,
      max_tag_index := new_tag_index }

/-- `remove_tag` body: `del project_tags[tag_idx]` (the `none` result is the
`KeyError` on a missing key), then for every class
`if tag_idx in tags: tags.remove(tag_idx)` (first occurrence removed, which
on a duplicate-free tag list is the whole occurrence). -/
def remove_tag (config : ProjectConfig) (tag_idx : Nat) : Option ProjectConfig :=
  match Dict.lookup config.project_tags tag_idx with
  | none => none
  | some _ =>
    some { config with
        project_tags := Dict.eraseKey config.project_tags tag_idx,
        classes := config.classes.map (fun p =>
          (p.1, if tag_idx ∈ p.2 then p.2.erase tag_idx else p.2)) }

/-- The persisted config after the remove-tag route:
`write_project_config` runs only when `del` did not raise; on a `KeyError`
the stored document stays as it was. -/
def remove_tag_route (stored : ProjectConfig) (tag_idx : Nat) : ProjectConfig :=
  match remove_tag stored tag_idx with
  | some c => c
  | none => stored

/-- `edit_tag`: `project_tags[tag_idx] = new_tag_name`. -/
def edit_tag (config : ProjectConfig) (tag_idx : Nat) (newTagName : String) :
    ProjectConfig :=
  { config with
      project_tags := Dict.setItem config.project_tags tag_idx newTagName }

/-- A tag operation submitted to one of the three routes. -/
inductive TagOp where
  | create (name : String)
  | remove (idx : Nat)
  | edit (idx : Nat) (name : String)

/-- Effect of one route invocation on the persisted config. -/
def applyTagOp (config : ProjectConfig) : TagOp → ProjectConfig
  | .create name => create_tag config name
  | .remove idx => remove_tag_route config idx
  | .edit idx name => edit_tag config idx name

/-- Effect of a sequence of route invocations on the persisted config. -/
def applyTagOps (config : ProjectConfig) (ops : List TagOp) : ProjectConfig :=
  ops.foldl applyTagOp config

theorem remove_tag_max (config : ProjectConfig) (i : Nat) (c' : ProjectConfig)
    (h : remove_tag config i = some c') :
    c'.max_tag_index = config.max_tag_index := by
  unfold remove_tag at h
  cases hl : Dict.lookup config.project_tags i with
  | none =>
    rw [hl] at h
    exact Option.noConfusion h
  | some v =>
    rw [hl] at h
    obtain rfl := Option.some.inj h
    rfl

theorem max_tag_index_le_applyTagOp (config : ProjectConfig) (op : TagOp) :
    config.max_tag_index ≤ (applyTagOp config op).max_tag_index := by
  cases op with
  | create name => exact Nat.le_succ _
  | remove idx =>
    show config.max_tag_index ≤ (remove_tag_route config idx).max_tag_index
    unfold remove_tag_route
    cases h : remove_tag config idx with
    | none => exact Nat.le_refl _
    | some c => exact le_of_eq (remove_tag_max config idx c h).symm
  | edit idx name => exact Nat.le_refl _

theorem max_tag_index_le_applyTagOps (config : ProjectConfig) (ops : List TagOp) :
    config.max_tag_index ≤ (applyTagOps config ops).max_tag_index := by
  induction ops generalizing config with
  | nil => exact Nat.le_refl _
  | cons op rest ih =>
    exact Nat.le_trans (max_tag_index_le_applyTagOp config op)
      (ih (applyTagOp config op))

/-- C5: `create_tag` allocates id `max_tag_index + 1`, binds the new name
there and raises `max_tag_index` to it; `remove_tag` leaves `max_tag_index`
unchanged; `max_tag_index` is monotone over any sequence of tag operations;
hence a tag id allocated (and possibly deleted) earlier — any
`idx ≤ max_tag_index` — is never the id a later `create_tag` allocates. -/
theorem tag_id_allocation (config : ProjectConfig) (name : String) (i : Nat) :
    (create_tag config name).max_tag_index = config.max_tag_index + 1
    ∧ Dict.lookup (create_tag config name).project_tags
        (config.max_tag_index + 1) = some name
    ∧ (remove_tag_route config i).max_tag_index = config.max_tag_index
    ∧ (∀ ops : List TagOp,
        config.max_tag_index ≤ (applyTagOps config ops).max_tag_index)
    ∧ (∀ idx, idx ≤ config.max_tag_index → ∀ ops : List TagOp, ∀ n,
        (create_tag (applyTagOps config ops) n).max_tag_index ≠ idx) := by
  refine ⟨rfl, ?_, ?_, max_tag_index_le_applyTagOps config, ?_⟩
  · show Dict.lookup (Dict.setItem config.project_tags
        (config.max_tag_index + 1) name) (config.max_tag_index + 1) = some name
    rw [Dict.lookup_setItem, if_pos rfl]
  · unfold remove_tag_route
    cases h : remove_tag config i with
    | none => rfl
    | some c => exact remove_tag_max config i c h
  · intro idx hidx ops n
    have hmono := max_tag_index_le_applyTagOps config ops
    show (applyTagOps config ops).max_tag_index + 1 ≠ idx
    omega

/-- C5 witness: from a config with `max_tag_index = 1`, creating allocates
id 2 and binds the name there, removing keeps `max_tag_index` at 1, and
after removing tag 1 a later create never reallocates id 1. -/
theorem tag_id_allocation_witness :
    (create_tag ⟨[(1, "old")], 1, [("cls", [1])]⟩ "new").max_tag_index = 2
    ∧ Dict.lookup (create_tag ⟨[(1, "old")], 1, [("cls", [1])]⟩
        "new").project_tags 2 = some "new"
    ∧ (remove_tag_route ⟨[(1, "old")], 1, [("cls", [1])]⟩ 1).max_tag_index = 1
    ∧ (create_tag (applyTagOps ⟨[(1, "old")], 1, [("cls", [1])]⟩
        [TagOp.remove 1]) "x").max_tag_index ≠ 1 :=
  ⟨(tag_id_allocation ⟨[(1, "old")], 1, [("cls", [1])]⟩ "new" 1).1,
   (tag_id_allocation ⟨[(1, "old")], 1, [("cls", [1])]⟩ "new" 1).2.1,
   (tag_id_allocation ⟨[(1, "old")], 1, [("cls", [1])]⟩ "new" 1).2.2.1,
   (tag_id_allocation ⟨[(1, "old")], 1, [("cls", [1])]⟩ "new" 1).2.2.2.2
      1 (by decide) [TagOp.remove 1] "x"⟩

theorem Dict.lookup_mapValues {K V W : Type} [DecidableEq K] (f : V → W)
    (d : Dict K V) (k : K) :
    Dict.lookup (d.map (fun p => (p.1, f p.2))) k = (Dict.lookup d k).map f := by
  induction d with
  | nil => rfl
  | cons hd tl ih =>
    obtain ⟨a, v⟩ := hd
    show Dict.lookup ((a, f v) :: tl.map (fun p => (p.1, f p.2))) k = _
    rw [Dict.lookup_cons, Dict.lookup_cons]
    by_cases hak : a = k
    · rw [if_pos hak, if_pos hak]
      rfl
    · rw [if_neg hak, if_neg hak]
      exact ih

/-- C6: when `tag_idx` is present, `remove_tag` succeeds, deletes the id
from `project_tags`, deletes it from the tag list of every class holding
it, and leaves every other tag id of every class untouched (tag lists are
sets: duplicate-free). -/
theorem remove_tag_cascade (config : ProjectConfig) (tag_idx : Nat) (name : String)
    (hp : Dict.lookup config.project_tags tag_idx = some name)
    (hsets : ∀ ts ∈ config.classes.map Prod.snd, ts.Nodup) :
    ∃ c', remove_tag config tag_idx = some c'
      ∧ Dict.lookup c'.project_tags tag_idx = none
      ∧ (∀ l ts, Dict.lookup config.classes l = some ts →
          ∃ ts', Dict.lookup c'.classes l = some ts'
            ∧ tag_idx ∉ ts'
            ∧ (∀ j, j ≠ tag_idx → (j ∈ ts' ↔ j ∈ ts))) := by
  have hrm : remove_tag config tag_idx
      = some { config with
          project_tags := Dict.eraseKey config.project_tags tag_idx,
          classes := config.classes.map (fun p =>
            (p.1, if tag_idx ∈ p.2 then p.2.erase tag_idx else p.2)) } := by
    unfold remove_tag
    rw [hp]
  refine ⟨_, hrm, ?_, ?_⟩
  · rw [Dict.lookup_eraseKey, if_pos rfl]
  · intro l ts hts
    have hnd : ts.Nodup :=
      hsets ts (List.mem_map_of_mem Prod.snd (Dict.lookup_mem hts))
    refine ⟨if tag_idx ∈ ts then ts.erase tag_idx else ts, ?_, ?_, ?_⟩
    · have h := Dict.lookup_mapValues
        (fun ts => if tag_idx ∈ ts then ts.erase tag_idx else ts)
        config.classes l
      rw [h, hts]
      rfl
    · by_cases hmem : tag_idx ∈ ts
      · rw [if_pos hmem]
        intro hcontra
        exact absurd ((hnd.mem_erase_iff).mp hcontra).1 (by simp)
      · rw [if_neg hmem]
        exact hmem
    · intro j hj
      by_cases hmem : tag_idx ∈ ts
      · rw [if_pos hmem]
        exact List.mem_erase_of_ne hj
      · rw [if_neg hmem]

/-- C6 witness: removing tag 1 from a config where class `c1` holds tags
1 and 2 and class `c2` holds tag 2. -/
theorem remove_tag_cascade_witness :
    ∃ c', remove_tag ⟨[(1, "a"), (2, "b")], 2, [("c1", [1, 2]), ("c2", [2])]⟩ 1
        = some c'
      ∧ Dict.lookup c'.project_tags 1 = none
      ∧ (∀ l ts,
          Dict.lookup ([("c1", [1, 2]), ("c2", [2])] : Dict String (List Nat)) l
            = some ts →
          ∃ ts', Dict.lookup c'.classes l = some ts'
            ∧ 1 ∉ ts'
            ∧ (∀ j, j ≠ 1 → (j ∈ ts' ↔ j ∈ ts))) :=
  remove_tag_cascade ⟨[(1, "a"), (2, "b")], 2, [("c1", [1, 2]), ("c2", [2])]⟩
    1 "a" (by decide) (by decide)

/-- C9: `edit_tag` only rebinds `project_tags[tag_idx]` to the submitted
name: `max_tag_index`, `classes` and every other `project_tags` entry are
unchanged. -/
theorem edit_tag_frame (config : ProjectConfig) (tag_idx : Nat)
    (newTagName : String) :
    (edit_tag config tag_idx newTagName).max_tag_index = config.max_tag_index
    ∧ (edit_tag config tag_idx newTagName).classes = config.classes
    ∧ Dict.lookup (edit_tag config tag_idx newTagName).project_tags tag_idx
        = some newTagName
    ∧ (∀ j, j ≠ tag_idx →
        Dict.lookup (edit_tag config tag_idx newTagName).project_tags j
          = Dict.lookup config.project_tags j) := by
  refine ⟨rfl, rfl, ?_, ?_⟩
  · show Dict.lookup (Dict.setItem config.project_tags tag_idx newTagName)
      tag_idx = some newTagName
    rw [Dict.lookup_setItem, if_pos rfl]
  · intro j hj
    show Dict.lookup (Dict.setItem config.project_tags tag_idx newTagName) j
      = Dict.lookup config.project_tags j
    rw [Dict.lookup_setItem, if_neg hj]

/-- C9 witness: editing tag 1 in a two-tag config renames it and leaves
tag 2, `max_tag_index` and `classes` alone. -/
theorem edit_tag_frame_witness :
    (edit_tag ⟨[(1, "a"), (2, "b")], 2, [("c1", [1])]⟩ 1 "z").max_tag_index = 2
    ∧ (edit_tag ⟨[(1, "a"), (2, "b")], 2, [("c1", [1])]⟩ 1 "z").classes
        = [("c1", [1])]
    ∧ Dict.lookup (edit_tag ⟨[(1, "a"), (2, "b")], 2, [("c1", [1])]⟩
        1 "z").project_tags 1 = some "z"
    ∧ Dict.lookup (edit_tag ⟨[(1, "a"), (2, "b")], 2, [("c1", [1])]⟩
        1 "z").project_tags 2 = some "b" :=
  ⟨(edit_tag_frame ⟨[(1, "a"), (2, "b")], 2, [("c1", [1])]⟩ 1 "z").1,
   (edit_tag_frame ⟨[(1, "a"), (2, "b")], 2, [("c1", [1])]⟩ 1 "z").2.1,
   (edit_tag_frame ⟨[(1, "a"), (2, "b")], 2, [("c1", [1])]⟩ 1 "z").2.2.1,
   by
    rw [(edit_tag_frame ⟨[(1, "a"), (2, "b")], 2, [("c1", [1])]⟩ 1 "z").2.2.2
      2 (by decide)]
    decide⟩

/-- C10: on a `tag_idx` absent from `project_tags`, `remove_tag` raises
(`none`, the `KeyError` of `del`) before `write_project_config` is reached,
so the persisted configuration is unchanged. -/
theorem remove_tag_missing_key (stored : ProjectConfig) (tag_idx : Nat)
    (h : Dict.lookup stored.project_tags tag_idx = none) :
    remove_tag stored tag_idx = none
    ∧ remove_tag_route stored tag_idx = stored := by
  have h1 : remove_tag stored tag_idx = none := by
    unfold remove_tag
    rw [h]
  refine ⟨h1, ?_⟩
  unfold remove_tag_route
  rw [h1]

/-- C10 witness: removing the absent tag 2 from a config holding only
tag 1 fails and persists nothing. -/
theorem remove_tag_missing_key_witness :
    remove_tag ⟨[(1, "a")], 1, [("c1", [1])]⟩ 2 = none
    ∧ remove_tag_route ⟨[(1, "a")], 1, [("c1", [1])]⟩ 2
        = ⟨[(1, "a")], 1, [("c1", [1])]⟩ :=
  remove_tag_missing_key ⟨[(1, "a")], 1, [("c1", [1])]⟩ 2 (by decide)

/-!
Model assembly, from `src/examples/run_volleyball_classifier.py`:

    gesture_classifier = LogisticRegression(num_in=feature_extractor.feature_dim,
                                            num_out=len(INT2LAB))
    gesture_classifier.load_state_dict(checkpoint_classifier)

`checkpoint_classifier` is, at this point, what remains after the merge
loop popped the fine-tuned layers. `feature_dim` stands for
`feature_extractor.feature_dim`.
-/

/-- What the script hands to the two model stages: the patched backbone
weights, the classifier constructor arguments and the weights loaded into
the classifier. -/
structure AssembledModel (V : Type) where
  feature_extractor_weights : Dict String V
  classifier_num_in : Nat
  classifier_num_out : Nat
  classifier_weights : Dict String V

/-- The assembly part of the script: merge the two checkpoints, then build
`LogisticRegression(num_in=feature_dim, num_out=len(INT2LAB))` and load it
with the remaining classifier checkpoint. -/
def assembleModel {V : Type} (checkpoint checkpoint_classifier : Dict String V)
    (class2int : Dict String Nat) (feature_dim : Nat) : AssembledModel V :=
  let merged := mergeCheckpoints checkpoint checkpoint_classifier
  { feature_extractor_weights := merged.1
    classifier_num_in := feature_dim
    classifier_num_out := (INT2LAB class2int).length
    classifier_weights := merged.2 }

/-- C7: the classifier stage is built with input dimension equal to the
feature extractor feature dimension and output dimension `len(INT2LAB)`,
and is loaded with exactly the classifier weights left after the merge:
nothing for a key the backbone also had, the original classifier value for
every other key. -/
theorem classifier_dimensioning {V : Type}
    (checkpoint checkpoint_classifier : Dict String V)
    (class2int : Dict String Nat) (feature_dim : Nat)
    (hwf : Dict.WF checkpoint) :
    (assembleModel checkpoint checkpoint_classifier class2int
        feature_dim).classifier_num_in = feature_dim
    ∧ (assembleModel checkpoint checkpoint_classifier class2int
        feature_dim).classifier_num_out = (INT2LAB class2int).length
    ∧ (∀ j, Dict.lookup (assembleModel checkpoint checkpoint_classifier
        class2int feature_dim).classifier_weights j
      = if Dict.containsKey checkpoint j = true then none
        else Dict.lookup checkpoint_classifier j) := by
  have hnd := nodup_name_finetuned_layers checkpoint checkpoint_classifier hwf
  have hsub : ∀ k ∈ name_finetuned_layers checkpoint checkpoint_classifier,
      Dict.containsKey checkpoint_classifier k = true :=
    fun k hk => ((mem_name_finetuned_layers _ _ _).mp hk).2
  refine ⟨rfl, rfl, ?_⟩
  intro j
  have h := mergeFold_lookup (name_finetuned_layers checkpoint checkpoint_classifier)
    checkpoint checkpoint_classifier hnd hsub j
  show Dict.lookup (mergeCheckpoints checkpoint checkpoint_classifier).2 j = _
  by_cases hb : Dict.containsKey checkpoint j = true
  · rw [if_pos hb]
    by_cases hc : Dict.containsKey checkpoint_classifier j = true
    · have hmem : j ∈ name_finetuned_layers checkpoint checkpoint_classifier :=
        (mem_name_finetuned_layers _ _ _).mpr ⟨hb, hc⟩
      rw [mergeCheckpoints, h.2, if_pos hmem]
    · have hmem : j ∉ name_finetuned_layers checkpoint checkpoint_classifier :=
        fun hm => hc ((mem_name_finetuned_layers _ _ _).mp hm).2
      rw [mergeCheckpoints, h.2, if_neg hmem]
      simp at hc
      exact (Dict.containsKey_false_iff _ _).mp hc
  · rw [if_neg hb]
    have hmem : j ∉ name_finetuned_layers checkpoint checkpoint_classifier :=
      fun hm => hb ((mem_name_finetuned_layers _ _ _).mp hm).1
    rw [mergeCheckpoints, h.2, if_neg hmem]

/-- C7 witness: with the spec example checkpoints and the two-label file
`{pass: 0, serve: 1}`, the classifier stage gets `num_in = 1280`,
`num_out = 2`, no weight for the popped `layer2` and the original weight
for `head`. -/
theorem classifier_dimensioning_witness :
    (assembleModel [("layer1", 10), ("layer2", 20)] [("layer2", 25), ("head", 30)]
        [("pass", 0), ("serve", 1)] 1280).classifier_num_in = 1280
    ∧ (assembleModel [("layer1", 10), ("layer2", 20)] [("layer2", 25), ("head", 30)]
        [("pass", 0), ("serve", 1)] 1280).classifier_num_out = 2
    ∧ Dict.lookup (assembleModel [("layer1", 10), ("layer2", 20)]
        [("layer2", 25), ("head", 30)] [("pass", 0), ("serve", 1)]
        1280).classifier_weights "layer2" = none
    ∧ Dict.lookup (assembleModel [("layer1", 10), ("layer2", 20)]
        [("layer2", 25), ("head", 30)] [("pass", 0), ("serve", 1)]
        1280).classifier_weights "head" = some 30 :=
  ⟨(classifier_dimensioning [("layer1", 10), ("layer2", 20)]
      [("layer2", 25), ("head", 30)] [("pass", 0), ("serve", 1)] 1280
      (by decide)).1,
   by
    rw [(classifier_dimensioning [("layer1", 10), ("layer2", 20)]
      [("layer2", 25), ("head", 30)] [("pass", 0), ("serve", 1)] 1280
      (by decide)).2.1]
    decide,
   by
    rw [(classifier_dimensioning [("layer1", 10), ("layer2", 20)]
      [("layer2", 25), ("head", 30)] [("pass", 0), ("serve", 1)] 1280
      (by decide)).2.2 "layer2"]
    decide,
   by
    rw [(classifier_dimensioning [("layer1", 10), ("layer2", 20)]
      [("layer2", 25), ("head", 30)] [("pass", 0), ("serve", 1)] 1280
      (by decide)).2.2 "head"]
    decide⟩

/-!
CLI argument handling, from `src/examples/run_volleyball_classifier.py`:

    args = docopt(__doc__)
    camera_id = args[--camera_id] or 0
    path_in = args[--path_in] or None
    path_out = args[--path_out] or None
    title = args[--title] or None
    ...
    display_results = sense.display.DisplayResults(title=title, ...)
    controller = Controller(..., camera_id=camera_id, path_in=path_in,
                            path_out=path_out, use_gpu=use_gpu)

docopt yields `None` for an omitted option and the given string otherwise;
`x or d` yields `d` whenever `x` is falsy (None, empty string, zero).
-/

/-- A Python value as it flows through the argument plumbing. -/
inductive PyVal where
  | none
  | int (n : Int)
  | str (s : String)
deriving DecidableEq

/-- Python truthiness for the values above. -/
def truthy : PyVal → Bool
  | .none => false
  | .int n => decide (n ≠ 0)
  | .str s => decide (s ≠ "")

/-- Python `a or b`. -/
def pyOr (a b : PyVal) : PyVal :=
  if truthy a then a else b

/-- The docopt result: `None` for an omitted option, the argument string
otherwise; `--use_gpu` is a plain boolean flag. -/
structure DocoptArgs where
  custom_classifier : PyVal
  camera_id : PyVal
  path_in : PyVal
  path_out : PyVal
  title : PyVal
  use_gpu : Bool

/-- The display stage; it receives the window title. -/
structure DisplayResults where
  title : PyVal

/-- The keyword arguments the script passes to `Controller`. -/
structure ControllerArgs where
  camera_id : PyVal
  path_in : PyVal
  path_out : PyVal
  use_gpu : Bool
  results_display : DisplayResults

/-- The argument plumbing of the script, from the docopt result to the
`Controller` construction. -/
def scriptController (args : DocoptArgs) : ControllerArgs :=
  let camera_id := pyOr args.camera_id (.int 0)
  let path_in := pyOr args.path_in .none
  let path_out := pyOr args.path_out .none
  let title := pyOr args.title .none
  { camera_id := camera_id
    path_in := path_in
    path_out := path_out
    use_gpu := args.use_gpu
    results_display := { title := title } }

/-- C8: omitted `--camera_id` becomes 0, omitted `--path_in`, `--path_out`
and `--title` become `None`; and the defaulted values reach the
`Controller` construction unchanged (the title inside the display stage
handed to the controller). -/
theorem cli_defaults (args : DocoptArgs) :
    (args.camera_id = PyVal.none → (scriptController args).camera_id = PyVal.int 0)
    ∧ (args.path_in = PyVal.none → (scriptController args).path_in = PyVal.none)
    ∧ (args.path_out = PyVal.none → (scriptController args).path_out = PyVal.none)
    ∧ (args.title = PyVal.none →
        (scriptController args).results_display.title = PyVal.none)
    ∧ (scriptController args).camera_id = pyOr args.camera_id (PyVal.int 0)
    ∧ (scriptController args).path_in = pyOr args.path_in PyVal.none
    ∧ (scriptController args).path_out = pyOr args.path_out PyVal.none
    ∧ (scriptController args).use_gpu = args.use_gpu
    ∧ (scriptController args).results_display.title = pyOr args.title PyVal.none := by
  refine ⟨?_, ?_, ?_, ?_, rfl, rfl, rfl, rfl, rfl⟩
  · intro h
    simp [scriptController, pyOr, truthy, h]
  · intro h
    simp [scriptController, pyOr, truthy, h]
  · intro h
    simp [scriptController, pyOr, truthy, h]
  · intro h
    simp [scriptController, pyOr, truthy, h]

/-- C8 witness: invoking with only `--custom_classifier` set gives
`camera_id = 0`, `path_in = None`, `path_out = None`, `title = None`. -/
theorem cli_defaults_witness :
    (scriptController ⟨.str "dir", .none, .none, .none, .none, false⟩).camera_id
      = PyVal.int 0
    ∧ (scriptController ⟨.str "dir", .none, .none, .none, .none, false⟩).path_in
      = PyVal.none
    ∧ (scriptController ⟨.str "dir", .none, .none, .none, .none, false⟩).path_out
      = PyVal.none
    ∧ (scriptController
        ⟨.str "dir", .none, .none, .none, .none, false⟩).results_display.title
      = PyVal.none :=
  ⟨(cli_defaults ⟨.str "dir", .none, .none, .none, .none, false⟩).1 rfl,
   (cli_defaults ⟨.str "dir", .none, .none, .none, .none, false⟩).2.1 rfl,
   (cli_defaults ⟨.str "dir", .none, .none, .none, .none, false⟩).2.2.1 rfl,
   (cli_defaults ⟨.str "dir", .none, .none, .none, .none, false⟩).2.2.2.1 rfl⟩

end Sense
